import Mathlib

/-!
Shallow embedding of the Semantic Candidate Retrieval core of
`src/sermon_assistant.py`: embedding generation with retry
(`get_embedding`, `get_query_embedding`), composite embedding-input text
(`create_embedding_text`), cosine-similarity ranking (`cosine_similarity`,
`semantic_search`) and the sync engine (`sync_embeddings_with_notion`).

Vectors are modelled as lists of rationals (exact arithmetic in place of
IEEE floats).  A cosine similarity `dot(a,b) / (‖a‖·‖b‖)` is represented
exactly by the pair `⟨dot(a,b), (Σaᵢ²)·(Σbᵢ²)⟩`, read as
`num / √den`; `den = 0` encodes the undefined (NaN) value produced by
numpy when a zero-magnitude vector is involved.  External services
(the embedding API, the persistent blob store) are modelled as oracles
passed in as parameters, with instrumentation flags recording whether a
call happened.
-/

/-- Exact representation of a cosine similarity value `num / √den`
(`den` is the product of the two squared norms, hence nonnegative for
every value the code produces; `den = 0` encodes numpy's NaN). -/
structure Sim where
  num : ℚ
  den : ℚ
deriving DecidableEq, Repr

/-- Comparison of similarity values, faithful to the float comparison
used by Python's sort on the regime the data model allows (all squared
norms positive): for `den > 0` on both sides it decides
`num₁/√den₁ ≤ num₂/√den₂` by sign analysis and cross-squaring.
Values with `den ≤ 0` (the NaN class, never compared by the code on
well-formed stores) are totalised as a bottom class so that the
comparator is transitive and total on the whole type. -/
def simLe (s t : Sim) : Bool :=
  if s.den ≤ 0 then true
  else if t.den ≤ 0 then false
  else if 0 ≤ s.num then
    decide (0 ≤ t.num) && decide (s.num ^ 2 * t.den ≤ t.num ^ 2 * s.den)
  else
    decide (0 ≤ t.num) || decide (t.num ^ 2 * s.den ≤ s.num ^ 2 * t.den)

theorem simLe_total (s t : Sim) : simLe s t || simLe t s := by
  suffices h : simLe s t = true ∨ simLe t s = true by
    rcases h with h | h <;> simp [h]
  by_cases hs : s.den ≤ 0
  · left; simp [simLe, hs]
  by_cases ht : t.den ≤ 0
  · right; simp [simLe, ht]
  by_cases hsn : 0 ≤ s.num
  · by_cases htn : 0 ≤ t.num
    · rcases le_total (s.num ^ 2 * t.den) (t.num ^ 2 * s.den) with h | h
      · left; simp [simLe, hs, ht, hsn, htn, h]
      · right; simp [simLe, hs, ht, hsn, htn, h]
    · right; simp [simLe, hs, ht, hsn, htn]
  · by_cases htn : 0 ≤ t.num
    · left; simp [simLe, hs, ht, hsn, htn]
    · rcases le_total (t.num ^ 2 * s.den) (s.num ^ 2 * t.den) with h | h
      · left; simp [simLe, hs, ht, hsn, h]
      · right; simp [simLe, hs, ht, htn, h]

theorem simLe_trans (s t u : Sim) (hst : simLe s t) (htu : simLe t u) :
    simLe s u := by
  by_cases hs : s.den ≤ 0
  · simp [simLe, hs]
  by_cases ht : t.den ≤ 0
  · exfalso; simp [simLe, hs, ht] at hst
  by_cases hu : u.den ≤ 0
  · exfalso; simp [simLe, ht, hu] at htu
  have hs' : 0 < s.den := not_le.mp hs
  have ht' : 0 < t.den := not_le.mp ht
  have hu' : 0 < u.den := not_le.mp hu
  by_cases hsn : 0 ≤ s.num
  · simp only [simLe, hs, hsn] at hst
    simp [ht] at hst
    obtain ⟨htn, h1⟩ := hst
    simp [simLe, ht, hu, htn] at htu
    obtain ⟨hun, h2⟩ := htu
    simp [simLe, hs, hu, hsn, hun]
    nlinarith [mul_le_mul_of_nonneg_right h1 hu'.le,
      mul_le_mul_of_nonneg_right h2 hs'.le]
  · simp [simLe, hs, ht, hsn] at hst
    simp [simLe, hs, hu, hsn]
    rcases hst with htn | h1
    · simp [simLe, ht, hu, htn] at htu
      exact Or.inl htu.1
    · by_cases htn : 0 ≤ t.num
      · simp [simLe, ht, hu, htn] at htu
        exact Or.inl htu.1
      · simp [simLe, ht, hu, htn] at htu
        rcases htu with hun | h2
        · exact Or.inl hun
        · right
          nlinarith [mul_le_mul_of_nonneg_right h1 hu'.le,
            mul_le_mul_of_nonneg_right h2 hs'.le]

/-- Sum of squares of a vector's entries (the square of `np.linalg.norm`). -/
def sumSq (v : List ℚ) : ℚ := (v.map fun x => x * x).sum

/-- Dot product (`np.dot`); the code only ever applies it at equal
lengths (numpy raises otherwise), which the theorems assume. -/
def dotProd (a b : List ℚ) : ℚ := (List.zipWith (· * ·) a b).sum

/-- `cosine_similarity(a, b)`: the exact value `dot(a,b) / (‖a‖·‖b‖)`
represented as `⟨dot(a,b), (Σaᵢ²)·(Σbᵢ²)⟩` (read `num / √den`); when a
zero-magnitude vector is involved the denominator is 0 and numpy's
result is NaN, encoded here as `den = 0`. -/
def cosine_similarity (a b : List ℚ) : Sim :=
  ⟨dotProd a b, sumSq a * sumSq b⟩

/-- An illustration item as produced by the source listing
(`fetch_all_illustrations_from_notion`). -/
structure Item where
  id : String
  title : String
  summary : String
  subjects : List String
  emotions : List String
  url : String
  source_url : String
  preacher : String
deriving DecidableEq, Repr

/-- A persisted embedding record as built by `generate_all_embeddings` /
`sync_embeddings_with_notion`.  A record whose `embedding` key is absent
from the stored JSON is modelled with `embedding = []`; the code's
truthiness test `'embedding' in item and item['embedding']` collapses
the two cases. -/
structure EmbRec where
  id : String
  title : String
  summary : String
  subjects : List String
  emotions : List String
  source_url : String
  preacher : String
  embedding : List ℚ
deriving DecidableEq, Repr

/-- A scored search result: the record's displayable fields (the
`embedding` key is stripped) plus the `similarity` value. -/
structure Scored where
  id : String
  title : String
  summary : String
  subjects : List String
  emotions : List String
  source_url : String
  preacher : String
  similarity : Sim
deriving DecidableEq, Repr

/-- `create_embedding_text(illust)`.  In the data model `subjects` and
`emotions` are lists, so only the `isinstance(..., list)` branches of
the source are reachable; the truthiness tests on `summary`, `subjects`
and `emotions` are the emptiness tests below.  The title is the
unconditional first element of `parts`. -/
def create_embedding_text (illust : Item) : String :=
  let parts := [illust.title]
  let parts := if illust.summary ≠ "" then parts ++ [illust.summary] else parts
  let parts :=
    if illust.subjects ≠ [] then
      parts ++ [String.intercalate ", " illust.subjects]
    else parts
  let parts :=
    if illust.emotions ≠ [] then
      parts ++ [String.intercalate ", " illust.emotions]
    else parts
  String.intercalate " | " parts

/-- The body of `get_embedding`'s `for attempt in range(max_retries)`
loop, iterating over the remaining attempt indices and threading the
count of `time.sleep(1)` calls.  `oracle n` is the outcome of the call
to `genai.embed_content` on attempt `n` (`none` models a raised
exception); the `attempt < max_retries - 1` test of the source is the
`rest` nonemptiness test (a pause happens only between attempts). -/
def get_embedding_loop (oracle : Nat → Option (List ℚ)) :
    List Nat → Nat → Option (List ℚ) × Nat
  | [], sleeps => (none, sleeps)
  | attempt :: rest, sleeps =>
    match oracle attempt with
    | some v => (some v, sleeps)
    | none =>
      match rest with
      | [] => (none, sleeps)
      | _ :: _ => get_embedding_loop oracle rest (sleeps + 1)

/-- `get_embedding(text, max_retries=3)`: returns the first successful
service response among the first `max_retries` attempts, sleeping one
second between consecutive attempts, and `none` (not an exception) after
exhausting the bound.  The second component counts the one-second
pauses. -/
def get_embedding (oracle : Nat → Option (List ℚ)) (max_retries : Nat := 3) :
    Option (List ℚ) × Nat :=
  get_embedding_loop oracle (List.range max_retries) 0

/-- `get_query_embedding(text)`: a single service call; on error the
handler emits a warning and returns `None` — there is no retry loop. -/
def get_query_embedding (oracle : Nat → Option (List ℚ)) : Option (List ℚ) :=
  oracle 0

/-- The result dict built for one store item inside `semantic_search`:
all fields except `embedding`, plus the similarity to the query. -/
def scoreRecord (q : List ℚ) (r : EmbRec) : Scored :=
  ⟨r.id, r.title, r.summary, r.subjects, r.emotions, r.source_url,
    r.preacher, cosine_similarity q r.embedding⟩

/-- The unsorted scored list built by `semantic_search`'s loop: records
whose `embedding` entry is missing or empty are skipped by the
truthiness test. -/
def scoreAll (q : List ℚ) (store : List EmbRec) : List Scored :=
  (store.filter fun r => !r.embedding.isEmpty).map (scoreRecord q)

/-- The comparator modelling
`results.sort(key=lambda x: x['similarity'], reverse=True)`: a stable
sort, descending by similarity. -/
def simDescLe (a b : Scored) : Bool := simLe b.similarity a.similarity

/-- `semantic_search(query_text, embeddings_data, top_k=30)`, with the
query-embedding service step modelled as an oracle; the boolean flag
records whether `get_query_embedding` was invoked (the empty-store early
return happens before that call). -/
def semantic_searchT (getQ : Unit → Option (List ℚ))
    (embeddings_data : List EmbRec) (top_k : Nat := 30) :
    List Scored × Bool :=
  if embeddings_data.isEmpty then ([], false)
  else
    match getQ () with
    | none => ([], true)
    | some q =>
      if q.isEmpty then ([], true)
      else (((scoreAll q embeddings_data).mergeSort simDescLe).take top_k, true)

/-- The ranked result list of `semantic_search`. -/
def semantic_search (getQ : Unit → Option (List ℚ))
    (embeddings_data : List EmbRec) (top_k : Nat := 30) : List Scored :=
  (semantic_searchT getQ embeddings_data top_k).1

/-- The `EmbeddingRecord` dict appended for a new item whose embedding
generation succeeded. -/
def mkEmbRec (item : Item) (v : List ℚ) : EmbRec :=
  ⟨item.id, item.title, item.summary, item.subjects, item.emotions,
    item.source_url, item.preacher, v⟩

/-- The `new_items` selection of `sync_embeddings_with_notion`: the
listing items whose `id` is absent from the current store's id set. -/
def syncNewItems (notion_data : List Item) (embeddings_data : List EmbRec) :
    List Item :=
  let existing_ids := embeddings_data.map (·.id)
  notion_data.filter fun item => !existing_ids.contains item.id

/-- The `new_embeddings` list of `sync_embeddings_with_notion`: one
record per new item whose `get_embedding` call succeeded (failed items
are dropped). -/
def syncNewEmbeddings (embed : String → Option (List ℚ))
    (notion_data : List Item) (embeddings_data : List EmbRec) :
    List EmbRec :=
  (syncNewItems notion_data embeddings_data).filterMap fun item =>
    (embed (create_embedding_text item)).map (mkEmbRec item)

/-- `sync_embeddings_with_notion(notion_data, embeddings_data)`, with
`get_embedding` modelled as an oracle from the composite embedding text
to an optional vector.  Returns the updated store,
`len(new_embeddings)` (the newly-added count), and whether
`save_embeddings_to_drive` was called. -/
def sync_embeddings_with_notion (embed : String → Option (List ℚ))
    (notion_data : List Item) (embeddings_data : List EmbRec) :
    List EmbRec × Nat × Bool :=
  if (syncNewItems notion_data embeddings_data).isEmpty then
    (embeddings_data, 0, false)
  else
    let new_embeddings := syncNewEmbeddings embed notion_data embeddings_data
    (embeddings_data ++ new_embeddings, new_embeddings.length,
      !new_embeddings.isEmpty)

theorem sync_fst (embed : String → Option (List ℚ)) (nd : List Item)
    (st : List EmbRec) :
    (sync_embeddings_with_notion embed nd st).1 =
      st ++ syncNewEmbeddings embed nd st := by
  unfold sync_embeddings_with_notion
  split
  · next h =>
    have hni : syncNewItems nd st = [] := by simpa using h
    simp [syncNewEmbeddings, hni]
  · rfl

theorem sync_count (embed : String → Option (List ℚ)) (nd : List Item)
    (st : List EmbRec) :
    (sync_embeddings_with_notion embed nd st).2.1 =
      (syncNewEmbeddings embed nd st).length := by
  unfold sync_embeddings_with_notion
  split
  · next h =>
    have hni : syncNewItems nd st = [] := by simpa using h
    simp [syncNewEmbeddings, hni]
  · rfl

theorem sync_saved (embed : String → Option (List ℚ)) (nd : List Item)
    (st : List EmbRec) :
    (sync_embeddings_with_notion embed nd st).2.2 =
      !(syncNewEmbeddings embed nd st).isEmpty := by
  unfold sync_embeddings_with_notion
  split
  · next h =>
    have hni : syncNewItems nd st = [] := by simpa using h
    simp [syncNewEmbeddings, hni]
  · rfl

theorem mem_syncNewItems (nd : List Item) (st : List EmbRec) (it : Item) :
    it ∈ syncNewItems nd st ↔ it ∈ nd ∧ ¬ it.id ∈ st.map (·.id) := by
  simp [syncNewItems]

/-- A sample persisted record used in concrete witnesses. -/
def recOfId (s : String) : EmbRec := ⟨s, "t", "", [], [], "", "", [1]⟩

/-- A sample listing item used in concrete witnesses. -/
def itemOfId (s : String) : Item := ⟨s, "t", "", [], [], "", "", ""⟩

/-- A five-item source listing used in the C8 scenario. -/
def listingABCDE : List Item :=
  [itemOfId "a", itemOfId "b", itemOfId "c", itemOfId "d", itemOfId "e"]

/-- Claim C6: sync writes the merged store to the blob exactly when at
least one new record's embedding generation succeeded; when zero new
records are produced (no new items, or every new item's embedding
failed), no write to persistent storage occurs. -/
theorem c6_sync_writes_iff_new_record (embed : String → Option (List ℚ))
    (nd : List Item) (st : List EmbRec) :
    (sync_embeddings_with_notion embed nd st).2.2 = true ↔
      0 < (sync_embeddings_with_notion embed nd st).2.1 := by
  rw [sync_saved, sync_count]
  simp [List.length_pos]

/-- Claim C7: every record present in the store before sync is still
present in the updated store after sync, regardless of the
source-listing content. -/
theorem c7_sync_preserves_existing (embed : String → Option (List ℚ))
    (nd : List Item) (st : List EmbRec) (r : EmbRec) (hr : r ∈ st) :
    r ∈ (sync_embeddings_with_notion embed nd st).1 := by
  rw [sync_fst]
  exact List.mem_append_left _ hr

/-- Concrete instantiation of `c7_sync_preserves_existing`. -/
theorem c7_sync_preserves_existing_witness :
    recOfId "a" ∈ [recOfId "a"] ∧
      recOfId "a" ∈
        (sync_embeddings_with_notion (fun _ => none) [itemOfId "b"]
          [recOfId "a"]).1 :=
  ⟨by decide,
    c7_sync_preserves_existing (fun _ => none) [itemOfId "b"] [recOfId "a"]
      (recOfId "a") (by decide)⟩

/-- Claim C8: sync selects exactly the listing items whose id is absent
from the store, and the newly-added count is the number of those items
whose embedding generation succeeded; in the concrete scenario of a
5-item listing with 2 ids already present and all embeddings
succeeding, exactly the 3 new records are appended and the count is
3. -/
theorem c8_sync_selection_and_count :
    (∀ (embed : String → Option (List ℚ)) (nd : List Item)
      (st : List EmbRec),
      (sync_embeddings_with_notion embed nd st).2.1 =
        (nd.filter fun it => !((st.map (·.id)).contains it.id)).countP
          (fun it => (embed (create_embedding_text it)).isSome)) ∧
    (sync_embeddings_with_notion (fun _ => some [1]) listingABCDE
        [recOfId "a", recOfId "b"]).2.1 = 3 ∧
    (sync_embeddings_with_notion (fun _ => some [1]) listingABCDE
        [recOfId "a", recOfId "b"]).1 =
      [recOfId "a", recOfId "b", mkEmbRec (itemOfId "c") [1],
        mkEmbRec (itemOfId "d") [1], mkEmbRec (itemOfId "e") [1]] := by
  refine ⟨fun embed nd st => ?_, by decide, by decide⟩
  rw [sync_count]
  unfold syncNewEmbeddings syncNewItems
  rw [List.length_filterMap_eq_countP]
  apply List.countP_congr
  intro a _
  cases embed (create_embedding_text a) <;> simp

/-- Claim C9: sync is idempotent — a second sync on the store produced
by a first sync of the same unchanged listing adds zero new records. -/
theorem c9_sync_idempotent (embed : String → Option (List ℚ))
    (nd : List Item) (st : List EmbRec) :
    (sync_embeddings_with_notion embed nd
      (sync_embeddings_with_notion embed nd st).1).2.1 = 0 := by
  rw [sync_count]
  have hnil :
      syncNewEmbeddings embed nd (sync_embeddings_with_notion embed nd st).1
        = [] := by
    rw [sync_fst]
    unfold syncNewEmbeddings
    rw [List.filterMap_eq_nil_iff]
    intro it hit
    rw [mem_syncNewItems] at hit
    obtain ⟨hnd, hnotin⟩ := hit
    rw [List.map_append] at hnotin
    have h1 : ¬ it.id ∈ st.map (·.id) := fun h =>
      hnotin (List.mem_append_left _ h)
    have h2 : ¬ it.id ∈ (syncNewEmbeddings embed nd st).map (·.id) :=
      fun h => hnotin (List.mem_append_right _ h)
    cases hemb : embed (create_embedding_text it) with
    | none => simp
    | some v =>
      exfalso
      apply h2
      have hmem : mkEmbRec it v ∈ syncNewEmbeddings embed nd st := by
        unfold syncNewEmbeddings
        rw [List.mem_filterMap]
        exact ⟨it, (mem_syncNewItems nd st it).mpr ⟨hnd, h1⟩,
          by rw [hemb]; rfl⟩
      exact List.mem_map.mpr ⟨mkEmbRec it v, hmem, rfl⟩
  rw [hnil]
  rfl

/-- Claim C10: for the empty store and every query, `semantic_search`
returns the empty sequence without raising, and the query-embedding
service is never consulted (the empty-store early return fires first). -/
theorem c10_empty_store_returns_empty (getQ : Unit → Option (List ℚ))
    (k : Nat) :
    semantic_search getQ [] k = [] ∧ (semantic_searchT getQ [] k).2 = false :=
  ⟨rfl, rfl⟩

/-- A service that raises on the first attempt and succeeds on the
second. -/
def flakyOracle : Nat → Option (List ℚ) := fun n =>
  if n = 0 then none else some [1]

/-- A service that raises on the first two attempts and succeeds on the
third. -/
def failTwiceOracle : Nat → Option (List ℚ) := fun n =>
  if n < 2 then none else some [1]

/-- Counterexample to claim C4: the query-purpose path
(`get_query_embedding`) performs a single attempt with no retry — on a
transient failure of the first call it returns failure even though a
second attempt would have succeeded, while the document-purpose retry
loop (`get_embedding`) succeeds on the same service behaviour. -/
theorem c4_query_purpose_never_retries :
    get_query_embedding flakyOracle = none ∧
      (get_embedding flakyOracle 3).1 = some [1] :=
  ⟨rfl, rfl⟩

/-- Claim C4 (amended): the document-purpose path (`get_embedding`)
returns the first success among at most 3 attempts, with one one-second
pause between consecutive attempts, and returns the failure value
`none` (no exception) after 3 failed attempts; the query-purpose path
(`get_query_embedding`) performs exactly one attempt and returns its
outcome, with failure (`none`) on error and no retry. -/
theorem c4_retry_behaviour (oracle : Nat → Option (List ℚ)) :
    (∀ v, oracle 0 = some v → get_embedding oracle 3 = (some v, 0)) ∧
    (∀ v, oracle 0 = none → oracle 1 = some v →
      get_embedding oracle 3 = (some v, 1)) ∧
    (∀ v, oracle 0 = none → oracle 1 = none → oracle 2 = some v →
      get_embedding oracle 3 = (some v, 2)) ∧
    (oracle 0 = none → oracle 1 = none → oracle 2 = none →
      get_embedding oracle 3 = (none, 2)) ∧
    get_query_embedding oracle = oracle 0 := by
  have hr : List.range 3 = [0, 1, 2] := rfl
  refine ⟨?_, ?_, ?_, ?_, rfl⟩ <;>
    (intros; simp [get_embedding, hr, get_embedding_loop, *])

/-- Concrete instantiation of `c4_retry_behaviour`: two transient
failures then a success give the embedding after two pauses, while the
query path fails outright. -/
theorem c4_retry_behaviour_witness :
    (failTwiceOracle 0 = none ∧ failTwiceOracle 1 = none ∧
      failTwiceOracle 2 = some [1]) ∧
    get_embedding failTwiceOracle 3 = (some [1], 2) ∧
    get_query_embedding failTwiceOracle = none :=
  ⟨⟨rfl, rfl, rfl⟩,
    (c4_retry_behaviour failTwiceOracle).2.2.1 [1] rfl rfl rfl,
    ((c4_retry_behaviour failTwiceOracle).2.2.2.2).trans rfl⟩

/-- An item with an empty title and a nonempty summary. -/
def emptyTitleItem : Item := ⟨"i", "", "s", [], [], "", "", ""⟩

/-- Counterexample to claim C5: an empty title is not skipped — it is
the unconditional first element of `parts`, so the composite text for
an empty title and summary `"s"` is `" | s"` (with an empty leading
placeholder), not `"s"`. -/
theorem c5_empty_title_not_skipped :
    create_embedding_text emptyTitleItem = " | s" ∧
      create_embedding_text emptyTitleItem ≠ "s" := by
  constructor <;> decide

/-- The composite text as the amended claim describes it: the title is
always the first section, even when empty; summary, subjects and
emotions are appended only when nonempty, tags joined by ", " and
sections joined by " | ". -/
def compositeTextDescribed (illust : Item) : String :=
  String.intercalate " | "
    ([illust.title] ++
      (if illust.summary = "" then [] else [illust.summary]) ++
      (if illust.subjects = [] then []
        else [String.intercalate ", " illust.subjects]) ++
      (if illust.emotions = [] then []
        else [String.intercalate ", " illust.emotions]))

/-- Claim C5 (amended): the composite embedding-input text concatenates
title, summary, joined subjects and joined emotions in that order with
", " inside a tag section and " | " between sections; empty summary,
subjects and emotions are skipped, but the (possibly empty) title is
always included as the first section. -/
theorem c5_composite_text_shape (illust : Item) :
    create_embedding_text illust = compositeTextDescribed illust := by
  unfold create_embedding_text compositeTextDescribed
  by_cases h1 : illust.summary = "" <;>
    by_cases h2 : illust.subjects = [] <;>
    by_cases h3 : illust.emotions = [] <;>
    simp [h1, h2, h3]

/-- A record whose stored vector is the zero vector `[0]` (nonempty, so
it passes the truthiness test, but of zero magnitude). -/
def zeroVecRec : EmbRec := ⟨"z", "t", "", [], [], "", "", [0]⟩

/-- Counterexample to claim C1: for query vector `[1]` and a store
holding one record with the zero-magnitude vector `[0]`, the record is
NOT excluded — `semantic_search` returns it, carrying the undefined
similarity `0/0` (numpy's NaN, encoded as denominator 0), rather than
the empty result the claim requires. -/
theorem c1_zero_vector_not_excluded :
    semantic_search (fun _ => some [1]) [zeroVecRec] 30 =
      [⟨"z", "t", "", [], [], "", "", ⟨0, 0⟩⟩] ∧
    (semantic_search (fun _ => some [1]) [zeroVecRec] 30).length ≠ 0 := by
  have h : semantic_search (fun _ => some [1]) [zeroVecRec] 30 =
      [⟨"z", "t", "", [], [], "", "", ⟨0, 0⟩⟩] := by
    simp [semantic_search, semantic_searchT, scoreAll, zeroVecRec,
      scoreRecord, cosine_similarity, dotProd, sumSq]
  exact ⟨h, by rw [h]; decide⟩

/-- Claim C1 (amended): a zero-magnitude stored vector (or query
vector) is not excluded and no error is raised: whenever a record's
nonempty embedding gives a zero norm product with the query, the record
is still returned (the bound `k` permitting), carrying the undefined
NaN similarity (denominator 0).  Only records with a missing or empty
embedding list are excluded. -/
theorem c1_zero_vector_included (q : List ℚ) (store : List EmbRec)
    (k : Nat) (r : EmbRec) (hq : q ≠ []) (hr : r ∈ store)
    (hre : r.embedding ≠ [])
    (hzero : sumSq q * sumSq r.embedding = 0) (hk : store.length ≤ k) :
    scoreRecord q r ∈ semantic_search (fun _ => some q) store k ∧
      (scoreRecord q r).similarity.den = 0 := by
  refine ⟨?_, hzero⟩
  have hmem : scoreRecord q r ∈ scoreAll q store := by
    unfold scoreAll
    exact List.mem_map.mpr
      ⟨r, List.mem_filter.mpr ⟨hr, by simpa using hre⟩, rfl⟩
  have hne : store.isEmpty = false := by
    rcases store with _ | _
    · simp at hr
    · rfl
  have hqe : q.isEmpty = false := by
    rcases q with _ | _
    · simp at hq
    · rfl
  unfold semantic_search semantic_searchT
  simp only [hne, hqe, Bool.false_eq_true, if_false]
  have hlen : ((scoreAll q store).mergeSort simDescLe).length ≤ k := by
    rw [List.length_mergeSort]
    calc (scoreAll q store).length
        ≤ store.length := by
          simpa [scoreAll] using
            List.length_filter_le (fun r => !r.embedding.isEmpty) store
      _ ≤ k := hk
  rw [List.take_of_length_le hlen]
  exact List.mem_mergeSort.mpr hmem

/-- Concrete instantiation of `c1_zero_vector_included` at query `[1]`
and the zero-vector record. -/
theorem c1_zero_vector_included_witness :
    (([1] : List ℚ) ≠ [] ∧ zeroVecRec ∈ [zeroVecRec] ∧
      zeroVecRec.embedding ≠ [] ∧
      sumSq [1] * sumSq zeroVecRec.embedding = 0 ∧
      [zeroVecRec].length ≤ 30) ∧
    (scoreRecord [1] zeroVecRec ∈
        semantic_search (fun _ => some [1]) [zeroVecRec] 30 ∧
      (scoreRecord [1] zeroVecRec).similarity.den = 0) :=
  by
  have hz : sumSq [1] * sumSq zeroVecRec.embedding = 0 := by
    norm_num [sumSq, zeroVecRec]
  exact ⟨⟨by decide, by decide, by decide, hz, by decide⟩,
    c1_zero_vector_included [1] [zeroVecRec] 30 zeroVecRec (by decide)
      (by decide) (by decide) hz (by decide)⟩

/-- Claim C2: for a query whose embedding succeeded (a nonempty,
nonzero-magnitude vector, as the embedding service produces) and a
store of well-formed records (nonempty embeddings of the query's
dimension with nonzero magnitude, per the data model), the ranked
output is sorted non-increasing by similarity, has length exactly
`min k |S|`, and when the store has at most `k` records it is a
permutation of all of them, scored. -/
theorem c2_rank_sorted_and_length (q : List ℚ) (store : List EmbRec)
    (k : Nat) (hq : q ≠ [])
    (hwf : ∀ r ∈ store, r.embedding ≠ [] ∧ r.embedding.length = q.length ∧
      sumSq r.embedding ≠ 0)
    (hq0 : sumSq q ≠ 0) :
    (semantic_search (fun _ => some q) store k).length = min k store.length ∧
    (semantic_search (fun _ => some q) store k).Pairwise
      (fun a b => simLe b.similarity a.similarity = true) ∧
    (store.length ≤ k →
      (semantic_search (fun _ => some q) store k).Perm
        (store.map (scoreRecord q))) := by
  by_cases hst : store.isEmpty = true
  · have hstore : store = [] := by simpa using hst
    subst hstore
    refine ⟨by simp [semantic_search, semantic_searchT], ?_, ?_⟩
    · simp [semantic_search, semantic_searchT]
    · intro _
      simp [semantic_search, semantic_searchT]
  · have hst' : store.isEmpty = false := by simpa using hst
    have hqe : q.isEmpty = false := by
      rcases q with _ | _
      · simp at hq
      · rfl
    have hfil : store.filter (fun r => !r.embedding.isEmpty) = store :=
      List.filter_eq_self.mpr fun r hr => by simpa using (hwf r hr).1
    have hscore : scoreAll q store = store.map (scoreRecord q) := by
      unfold scoreAll
      rw [hfil]
    unfold semantic_search semantic_searchT
    simp only [hst', hqe, Bool.false_eq_true, if_false]
    refine ⟨?_, ?_, ?_⟩
    · rw [List.length_take, List.length_mergeSort, hscore, List.length_map]
    · exact List.Pairwise.sublist (List.take_sublist _ _)
        (@List.sorted_mergeSort Scored simDescLe
          (fun a b c h1 h2 => simLe_trans _ _ _ h2 h1)
          (fun a b => simLe_total b.similarity a.similarity)
          (scoreAll q store))
    · intro hlk
      rw [List.take_of_length_le
        (by rw [List.length_mergeSort, hscore, List.length_map]; exact hlk)]
      exact (List.mergeSort_perm _ _).trans (by rw [hscore])

/-- Concrete instantiation of `c2_rank_sorted_and_length`: three
records, `k = 2`. -/
theorem c2_rank_sorted_and_length_witness :
    (([1] : List ℚ) ≠ [] ∧
      (∀ r ∈ [recOfId "a", recOfId "b", recOfId "c"],
        r.embedding ≠ [] ∧ r.embedding.length = ([1] : List ℚ).length ∧
          sumSq r.embedding ≠ 0) ∧
      sumSq [1] ≠ 0) ∧
    ((semantic_search (fun _ => some [1])
        [recOfId "a", recOfId "b", recOfId "c"] 2).length =
      min 2 [recOfId "a", recOfId "b", recOfId "c"].length ∧
    (semantic_search (fun _ => some [1])
        [recOfId "a", recOfId "b", recOfId "c"] 2).Pairwise
      (fun a b => simLe b.similarity a.similarity = true) ∧
    ([recOfId "a", recOfId "b", recOfId "c"].length ≤ 2 →
      (semantic_search (fun _ => some [1])
          [recOfId "a", recOfId "b", recOfId "c"] 2).Perm
        ([recOfId "a", recOfId "b", recOfId "c"].map (scoreRecord [1])))) := by
  have hwf : ∀ r ∈ [recOfId "a", recOfId "b", recOfId "c"],
      r.embedding ≠ [] ∧ r.embedding.length = ([1] : List ℚ).length ∧
        sumSq r.embedding ≠ 0 := by
    intro r hr
    simp only [List.mem_cons, List.not_mem_nil, or_false] at hr
    rcases hr with h | h | h <;> subst h <;>
      exact ⟨by decide, by decide, by norm_num [sumSq, recOfId]⟩
  have hq0 : sumSq [1] ≠ 0 := by norm_num [sumSq]
  exact ⟨⟨by decide, hwf, hq0⟩,
    c2_rank_sorted_and_length [1] [recOfId "a", recOfId "b", recOfId "c"] 2
      (by decide) hwf hq0⟩

/-- A second sample record whose vector `[2]` has the same cosine
similarity to the query `[1]` as `[1]` does. -/
def recTwo : EmbRec := ⟨"w", "t", "", [], [], "", "", [2]⟩

/-- Claim C3: ranking is a stable sort on similarity — two records with
equal similarity keep the store's insertion order in the output — and
the output is deterministic, depending only on the query vector and the
store content. -/
theorem c3_stable_ties_deterministic (q : List ℚ) (store : List EmbRec)
    (k : Nat) (r₁ r₂ : EmbRec) (hq : q ≠ [])
    (hwf : ∀ r ∈ store, r.embedding ≠ [] ∧ r.embedding.length = q.length ∧
      sumSq r.embedding ≠ 0)
    (hq0 : sumSq q ≠ 0)
    (hsub : [r₁, r₂].Sublist store)
    (htie : simLe (scoreRecord q r₁).similarity
        (scoreRecord q r₂).similarity = true ∧
      simLe (scoreRecord q r₂).similarity
        (scoreRecord q r₁).similarity = true)
    (hk : store.length ≤ k) :
    [scoreRecord q r₁, scoreRecord q r₂].Sublist
        (semantic_search (fun _ => some q) store k) ∧
      ∀ getQ' : Unit → Option (List ℚ), getQ' () = some q →
        semantic_searchT getQ' store k =
          semantic_searchT (fun _ => some q) store k := by
  constructor
  · have hst' : store.isEmpty = false := by
      rcases store with _ | _
      · simp at hsub
      · rfl
    have hqe : q.isEmpty = false := by
      rcases q with _ | _
      · simp at hq
      · rfl
    have hfil : store.filter (fun r => !r.embedding.isEmpty) = store :=
      List.filter_eq_self.mpr fun r hr => by simpa using (hwf r hr).1
    have hscore : scoreAll q store = store.map (scoreRecord q) := by
      unfold scoreAll
      rw [hfil]
    unfold semantic_search semantic_searchT
    simp only [hst', hqe, Bool.false_eq_true, if_false]
    rw [List.take_of_length_le
      (by rw [List.length_mergeSort, hscore, List.length_map]; exact hk)]
    refine @List.pair_sublist_mergeSort Scored simDescLe _ _ _
      (fun a b c h1 h2 => simLe_trans _ _ _ h2 h1)
      (fun a b => simLe_total b.similarity a.similarity)
      htie.2 ?_
    rw [hscore]
    exact hsub.map (scoreRecord q)
  · intro getQ' h
    simp [semantic_searchT, h]

/-- Concrete instantiation of `c3_stable_ties_deterministic`: records
with vectors `[1]` and `[2]` tie at similarity 1 for query `[1]` and
keep their insertion order. -/
theorem c3_stable_ties_deterministic_witness :
    (([1] : List ℚ) ≠ [] ∧
      (∀ r ∈ [recOfId "a", recTwo],
        r.embedding ≠ [] ∧ r.embedding.length = ([1] : List ℚ).length ∧
          sumSq r.embedding ≠ 0) ∧
      sumSq [1] ≠ 0 ∧
      [recOfId "a", recTwo].Sublist [recOfId "a", recTwo] ∧
      (simLe (scoreRecord [1] (recOfId "a")).similarity
          (scoreRecord [1] recTwo).similarity = true ∧
        simLe (scoreRecord [1] recTwo).similarity
          (scoreRecord [1] (recOfId "a")).similarity = true) ∧
      [recOfId "a", recTwo].length ≤ 2) ∧
    ([scoreRecord [1] (recOfId "a"), scoreRecord [1] recTwo].Sublist
        (semantic_search (fun _ => some [1]) [recOfId "a", recTwo] 2) ∧
      ∀ getQ' : Unit → Option (List ℚ), getQ' () = some [1] →
        semantic_searchT getQ' [recOfId "a", recTwo] 2 =
          semantic_searchT (fun _ => some [1]) [recOfId "a", recTwo] 2) := by
  have hwf : ∀ r ∈ [recOfId "a", recTwo],
      r.embedding ≠ [] ∧ r.embedding.length = ([1] : List ℚ).length ∧
        sumSq r.embedding ≠ 0 := by
    intro r hr
    simp only [List.mem_cons, List.not_mem_nil, or_false] at hr
    rcases hr with h | h <;> subst h <;>
      exact ⟨by decide, by decide, by norm_num [sumSq, recOfId, recTwo]⟩
  have hq0 : sumSq [1] ≠ 0 := by norm_num [sumSq]
  have htie : simLe (scoreRecord [1] (recOfId "a")).similarity
        (scoreRecord [1] recTwo).similarity = true ∧
      simLe (scoreRecord [1] recTwo).similarity
        (scoreRecord [1] (recOfId "a")).similarity = true := by
    constructor <;>
      norm_num [simLe, scoreRecord, cosine_similarity, dotProd, sumSq,
        recOfId, recTwo]
  exact ⟨⟨by decide, hwf, hq0, List.Sublist.refl _, htie, by decide⟩,
    c3_stable_ties_deterministic [1] [recOfId "a", recTwo] 2 (recOfId "a")
      recTwo (by decide) hwf hq0 (List.Sublist.refl _) htie (by decide)⟩
